import Mathlib

/-!
The record formatter and the capture session of nflogger.

A shallow embedding of `main.go` (package `main` of spreadspace/nflogger):
the two formatting functions `formatIPv4` and `format`, the two callbacks
installed by `main`, and `main` itself as a function from the outcomes of its
external collaborators to the sequence of observable actions it performs.

External collaborators (the interface lookup `net.InterfaceByIndex`, the IPv4
header parser `ipv4.ParseHeader`, and the name tables `hwTypeToString`,
`hwProtocolToString`, `ipProtoToString`, which live outside `main.go`) are
taken as given functions, bundled in `Env`.
-/

namespace Nflogger

/-! ## Data model -/

/-- An IPv4 address as held in `Header.Src` / `Header.Dst`: the four octets
`ipv4.ParseHeader` reads from bytes 12..15 and 16..19 of the packet. -/
structure IP where
  a : Nat
  b : Nat
  c : Nat
  d : Nat
  deriving DecidableEq, Repr

/-- The text `net.IP.String` gives for an IPv4 address: dotted decimal. -/
def IP.String (ip : IP) : String :=
  toString ip.a ++ "." ++ toString ip.b ++ "." ++ toString ip.c ++ "." ++ toString ip.d

/-- The fields of `ipv4.Header` that `formatIPv4` reads. -/
structure Header where
  TotalLen : Int
  Src : IP
  Dst : IP
  Protocol : Int
  deriving DecidableEq, Repr

/-- The field of `net.Interface` that `format` reads. -/
structure Interface where
  Name : String
  deriving DecidableEq, Repr

/-- A wall-clock instant, as the civil fields `time.Time.Format` prints. -/
structure Time where
  year : Nat
  month : Nat
  day : Nat
  hour : Nat
  minute : Nat
  second : Nat
  deriving DecidableEq, Repr

/-- Decimal rendering of `n`, zero-padded on the left to at least `w` digits. -/
def zeroPad (w n : Nat) : String :=
  String.mk (List.replicate (w - (Nat.repr n).length) '0') ++ Nat.repr n

/-- The result of `t.Format("2006-01-02 15:04:05")`. -/
def Time.Format (t : Time) : String :=
  zeroPad 4 t.year ++ "-" ++ zeroPad 2 t.month ++ "-" ++ zeroPad 2 t.day ++ " " ++
    zeroPad 2 t.hour ++ ":" ++ zeroPad 2 t.minute ++ ":" ++ zeroPad 2 t.second

/-- Modelled from the spec: the declaration of the record type `nflog.Attribute`,
which belongs to the transport library and not to `main.go`. The fields are
those of the LogRecord of the data model: the capture timestamp, and the
optional prefix, interface indices, hardware type and protocol, and payload,
which are the fields `format` tests against `nil`. -/
structure Attribute where
  Timestamp : Time
  Prefix : Option String
  InDev : Option Nat
  OutDev : Option Nat
  HwType : Option Nat
  HwProtocol : Option Nat
  Payload : Option (List Nat)
  deriving DecidableEq, Repr

/-- The external functions `formatIPv4` and `format` call. Errors carry their
message text. -/
structure Env where
  InterfaceByIndex : Int → Except String Interface
  ParseHeader : List Nat → Except String Header
  hwTypeToString : Nat → String
  hwProtocolToString : Nat → Nat → String
  ipProtoToString : Int → String

/-! ## The formatter -/

/-- The function `formatIPv4` of `main.go`. -/
def formatIPv4 (env : Env) (packet : List Nat) : String :=
  let msg := ""
  match env.ParseHeader packet with
  | .error _ => " <invalid not IPv4??>"
  | .ok header =>
    let msg := msg ++ (" LEN=" ++ toString header.TotalLen)
    let msg := msg ++ " SRC=" ++ header.Src.String
    let msg := msg ++ " DST=" ++ header.Dst.String
    let msg := msg ++ " PROTO=" ++ env.ipProtoToString header.Protocol
    msg

/-- The function `format` of `main.go`. The conversion `int(*attrs.InDev)` of a
`uint32` index is the index itself. -/
def format (env : Env) (attrs : Attribute) : String :=
  let msg := ""
  let msg :=
    match attrs.Prefix with
    | some p => p
    | none => msg
  let msg :=
    match attrs.InDev with
    | some i =>
      match env.InterfaceByIndex (Int.ofNat i) with
      | .ok intf => msg ++ " IN=" ++ intf.Name
      | .error _ => msg ++ " IN=<invalid>"
    | none => msg ++ " IN="
  let msg :=
    match attrs.OutDev with
    | some i =>
      match env.InterfaceByIndex (Int.ofNat i) with
      | .ok intf => msg ++ " OUT=" ++ intf.Name
      | .error _ => msg ++ " OUT=<invalid>"
    | none => msg ++ " OUT="
  let msg :=
    match attrs.HwType with
    | some t =>
      let msg := msg ++ " HWTYPE=" ++ env.hwTypeToString t
      match attrs.HwProtocol with
      | some p => msg ++ " HWPROTO=" ++ env.hwProtocolToString t p
      | none => msg ++ " HWPROTO="
    | none => msg ++ " HWTYPE="
  let msg :=
    match attrs.Payload with
    | some payload => msg ++ formatIPv4 env payload
    | none => msg
  msg

/-- A sample environment: interface 2 is `eth0`, every other index fails; the
header parser follows `ipv4.ParseHeader` on the fields used here (at least 20
bytes, big-endian total length, protocol at byte 9, addresses at 12 and 16). -/
def sampleEnv : Env where
  InterfaceByIndex := fun i =>
    if i = 2 then .ok ⟨"eth0"⟩ else .error "no such network interface"
  ParseHeader := fun b =>
    if b.length < 20 then .error "header too short"
    else .ok
      { TotalLen := Int.ofNat (b.getD 2 0 * 256 + b.getD 3 0)
        Src := ⟨b.getD 12 0, b.getD 13 0, b.getD 14 0, b.getD 15 0⟩
        Dst := ⟨b.getD 16 0, b.getD 17 0, b.getD 18 0, b.getD 19 0⟩
        Protocol := Int.ofNat (b.getD 9 0) }
  hwTypeToString := fun t => if t = 1 then "ETHER" else toString t
  hwProtocolToString := fun _ p => if p = 2048 then "IP" else toString p
  ipProtoToString := fun p => if p = 6 then "TCP" else if p = 17 then "UDP" else toString p

/-- A 20-byte IPv4 header: total length 60, protocol 6, 10.0.0.1 to 10.0.0.2. -/
def samplePacket : List Nat :=
  [69, 0, 0, 60, 0, 0, 0, 0, 64, 6, 0, 0, 10, 0, 0, 1, 10, 0, 0, 2]

/-- The record of the scenario: prefix `DROP`, input index 2, IPv4 payload. -/
def sampleRecord : Attribute where
  Timestamp := ⟨2023, 4, 9, 7, 5, 3⟩
  Prefix := some "DROP"
  InDev := some 2
  OutDev := none
  HwType := none
  HwProtocol := none
  Payload := some samplePacket

/-! ## The capture session -/

/-- The copy modes of the transport library (`nflog.CopyNone`, `nflog.CopyMeta`,
`nflog.CopyPacket`); `CopyPacket` asks for the packet bytes as well as the
metadata. -/
inductive CopyMode where
  | CopyNone
  | CopyMeta
  | CopyPacket
  deriving DecidableEq, Repr

/-- The fields of `nflog.Config` that `main` sets; `Group` is a `uint16`. -/
structure Config where
  Group : Nat
  Copymode : CopyMode
  deriving DecidableEq, Repr

/-- The signals `main` subscribes to. -/
inductive Signal where
  | SIGINT
  | SIGTERM
  deriving DecidableEq, Repr

/-- One invocation of a callback by the transport: a record for `hook`, or a
delivery error (its message text) for `errFunc`. -/
inductive Delivery where
  | record (attrs : Attribute)
  | error (err : String)
  deriving DecidableEq, Repr

/-- The observable actions of the process, in program order. -/
inductive Event where
  | stdout (text : String)
  | stderr (text : String)
  | nflogOpen (config : Config)
  | register
  | notify (sigs : List Signal)
  | recv (sig : Signal)
  | cancel
  | nfClose
  | exit (code : Nat)
  deriving DecidableEq, Repr

/-- The closure `hook` of `main`: what it writes, and the status it returns. -/
def hook (env : Env) (attrs : Attribute) : List Event × Int :=
  ([Event.stdout (attrs.Timestamp.Format ++ "  " ++ format env attrs ++ "\n")], 0)

/-- The closure `errFunc` of `main`: what it writes, and the status it returns. -/
def errFunc (err : String) : List Event × Int :=
  ([Event.stderr ("received error on hook: " ++ err ++ "\n")], 0)

/-- Modelled from the spec: the delivery loop of the transport library, which
is not in `main.go`. Each delivery invokes the matching callback once; the
status 0 means continue, and any other status ends the subscription, so that
no later delivery is handled. -/
def deliver (onRecord : Attribute → List Event × Int) (onError : String → List Event × Int) :
    List Delivery → List Event
  | [] => []
  | d :: rest =>
    let r :=
      match d with
      | .record attrs => onRecord attrs
      | .error err => onError err
    if r.2 ≠ (0 : Int) then r.1 else r.1 ++ deliver onRecord onError rest

/-- The state of the running process: the actions performed so far, the calls
deferred in `main` (most recent first), and the exit status once it has ended. -/
structure Proc where
  trace : List Event
  deferred : List Event
  status : Option Nat
  deriving DecidableEq, Repr

/-- Perform one action. -/
def Proc.emit (p : Proc) (e : Event) : Proc :=
  { p with trace := p.trace ++ [e] }

/-- A `defer` statement: the call is pushed and runs when `main` returns. -/
def Proc.defer (p : Proc) (e : Event) : Proc :=
  { p with deferred := e :: p.deferred }

/-- A call of `os.Exit(code)`: the process ends at once; deferred calls do not run. -/
def Proc.osExit (p : Proc) (code : Nat) : Proc :=
  { p with trace := p.trace ++ [Event.exit code], status := some code }

/-- Return from `main`: the deferred calls run, last deferred first, and the
process ends with status 0. -/
def Proc.ret (p : Proc) : Proc :=
  { trace := p.trace ++ p.deferred ++ [Event.exit 0], deferred := [], status := some 0 }

/-- What the collaborators of one run of `main` do: the parsed value of the
`group` flag (a `uint`), the error `nflog.Open` returns (if any), the error
`RegisterWithErrorFunc` returns (if any), the deliveries the transport makes
while `main` waits, and the signal that arrives on `sigs` (if any). -/
structure Run where
  nflogGroup : Nat
  openErr : Option String
  registerErr : Option String
  deliveries : List Delivery
  signal : Option Signal
  deriving DecidableEq, Repr

/-- The value of `^uint16(0)`. -/
def maxUint16 : Nat := 2 ^ 16 - 1

/-- The function `main` of `main.go`. -/
def main (env : Env) (r : Run) : Proc :=
  let p : Proc := { trace := [], deferred := [], status := none }
  if r.nflogGroup > maxUint16 then
    let p := p.emit (Event.stderr ("invalid group id " ++ toString r.nflogGroup ++
      " (must be between 0 and " ++ toString maxUint16 ++ ")\n"))
    p.osExit 1
  else
    let config : Config := { Group := r.nflogGroup % 2 ^ 16, Copymode := CopyMode.CopyPacket }
    let p := p.emit (Event.nflogOpen config)
    match r.openErr with
    | some err =>
      let p := p.emit (Event.stderr ("could not open nflog socket: " ++ err ++ "\n"))
      p.osExit 2
    | none =>
      let p := p.defer Event.nfClose
      let p := p.emit (Event.stderr ("listening to NFLOG Group " ++ toString config.Group ++ "\n"))
      let p := p.defer Event.cancel
      let p := p.emit Event.register
      match r.registerErr with
      | some err =>
        let p := p.emit (Event.stderr ("failed to register hook function: " ++ err ++ "\n"))
        p.osExit 2
      | none =>
        let p := p.emit (Event.notify [Signal.SIGINT, Signal.SIGTERM])
        let p := { p with trace := p.trace ++ deliver (hook env) errFunc r.deliveries }
        match r.signal with
        | none => p
        | some sig => (p.emit (Event.recv sig)).ret

/-! ## Vocabulary of the specification

The definitions below follow the words of the specification, not the code;
the theorems compare them with `format` and `formatIPv4`. -/

/-- Spec wording: the value of an interface field, which is the resolved name,
the placeholder `<invalid>` when resolution fails, and empty when the index is
absent. -/
def specIfaceValue (env : Env) : Option Nat → String
  | none => ""
  | some i =>
    match env.InterfaceByIndex (Int.ofNat i) with
    | .ok intf => intf.Name
    | .error _ => "<invalid>"

/-- Spec wording: the hardware-type name, empty when the type is absent. -/
def specHwTypeName (env : Env) : Option Nat → String
  | none => ""
  | some t => env.hwTypeToString t

/-- Spec wording: the `HWPROTO` field, there only if `HWTYPE` is present, its
value empty when the protocol is absent. -/
def specHwProtoField (env : Env) (attrs : Attribute) : String :=
  match attrs.HwType with
  | none => ""
  | some t =>
    " HWPROTO=" ++
      (match attrs.HwProtocol with
       | none => ""
       | some p => env.hwProtocolToString t p)

/-- Spec wording: the hardware-protocol name, empty unless both hardware fields
are present. -/
def specHwProtoName (env : Env) (attrs : Attribute) : String :=
  match attrs.HwType, attrs.HwProtocol with
  | some t, some p => env.hwProtocolToString t p
  | _, _ => ""

/-- Spec wording: the network-layer segment, there only if a payload is. -/
def specNetSegment (env : Env) (attrs : Attribute) : String :=
  match attrs.Payload with
  | none => ""
  | some payload => formatIPv4 env payload

/-- The text `pat` occurs in the text `s`. -/
def Occurs (pat s : String) : Prop := pat.data <:+: s.data

instance (pat s : String) : Decidable (Occurs pat s) := by
  unfold Occurs; infer_instance

/-- The labels of the network-layer segment. -/
def netLabels : List String := ["LEN=", "SRC=", "DST=", "PROTO="]

/-- None of the network-layer labels occurs in the text `s`. -/
def LabelFree (s : String) : Prop := ∀ lab ∈ netLabels, ¬ Occurs lab s

instance (s : String) : Decidable (LabelFree s) := by
  unfold LabelFree; infer_instance

/-- A record with both hardware fields and no payload. -/
def hwRecord : Attribute where
  Timestamp := ⟨2023, 4, 9, 7, 5, 3⟩
  Prefix := some "DROP"
  InDev := some 2
  OutDev := none
  HwType := some 1
  HwProtocol := some 2048
  Payload := none

/-- The actions the installed callbacks perform for one delivery. -/
def handle (env : Env) : Delivery → List Event
  | .record attrs => (hook env attrs).1
  | .error err => (errFunc err).1

/-- The texts written to standard output, in order. -/
def stdoutOf (trace : List Event) : List String :=
  trace.filterMap fun e =>
    match e with
    | .stdout text => some text
    | _ => none

/-- The texts written to standard error, in order. -/
def stderrOf (trace : List Event) : List String :=
  trace.filterMap fun e =>
    match e with
    | .stderr text => some text
    | _ => none

/-- The delivery is a record, not an error. -/
def Delivery.isRecord : Delivery → Bool
  | .record _ => true
  | .error _ => false

/-- The action only writes to standard output or standard error. -/
def Event.isWrite : Event → Bool
  | .stdout _ => true
  | .stderr _ => true
  | _ => false

/-- A run in which registration fails after the channel was opened. -/
def registerFailureRun : Run where
  nflogGroup := 7
  openErr := none
  registerErr := some "operation not permitted"
  deliveries := []
  signal := none

/-- A run that is shut down by SIGTERM after a record, an error and a record. -/
def signalRun : Run where
  nflogGroup := 7
  openErr := none
  registerErr := none
  deliveries := [Delivery.record sampleRecord, Delivery.error "no buffer space available",
    Delivery.record hwRecord]
  signal := some Signal.SIGTERM

/-- The text contains no newline. -/
def NoNewline (s : String) : Prop := '\n' ∉ s.data

instance (s : String) : Decidable (NoNewline s) := by
  unfold NoNewline; infer_instance

/-- The dereference `*p` of a pointer field: a nil pointer aborts the caller. -/
def deref {α : Type} : Option α → Except String α
  | some v => Except.ok v
  | none => Except.error "invalid memory address or nil pointer dereference"

/-- The function `format` of `main.go` once more, with every test `p != nil` and
every dereference `*p` of a record field written out, so that dereferencing an
absent field would abort instead of returning a string. -/
def formatDeref (env : Env) (attrs : Attribute) : Except String String :=
  let msg := ""
  (if attrs.Prefix.isSome then deref attrs.Prefix
   else Except.ok msg).bind fun msg =>
  (if attrs.InDev.isSome then
    (deref attrs.InDev).bind fun i =>
      match env.InterfaceByIndex (Int.ofNat i) with
      | .ok intf => Except.ok (msg ++ " IN=" ++ intf.Name)
      | .error _ => Except.ok (msg ++ " IN=<invalid>")
   else Except.ok (msg ++ " IN=")).bind fun msg =>
  (if attrs.OutDev.isSome then
    (deref attrs.OutDev).bind fun i =>
      match env.InterfaceByIndex (Int.ofNat i) with
      | .ok intf => Except.ok (msg ++ " OUT=" ++ intf.Name)
      | .error _ => Except.ok (msg ++ " OUT=<invalid>")
   else Except.ok (msg ++ " OUT=")).bind fun msg =>
  (if attrs.HwType.isSome then
    (deref attrs.HwType).bind fun t =>
      let msg := msg ++ " HWTYPE=" ++ env.hwTypeToString t
      if attrs.HwProtocol.isSome then
        (deref attrs.HwType).bind fun t =>
        (deref attrs.HwProtocol).bind fun p =>
          Except.ok (msg ++ " HWPROTO=" ++ env.hwProtocolToString t p)
      else Except.ok (msg ++ " HWPROTO=")
   else Except.ok (msg ++ " HWTYPE=")).bind fun msg =>
  (if attrs.Payload.isSome then
    (deref attrs.Payload).bind fun payload =>
      Except.ok (msg ++ formatIPv4 env payload)
   else Except.ok msg).bind fun msg =>
  Except.ok msg

/-- A record whose prefix holds a newline. -/
def newlineRecord : Attribute where
  Timestamp := ⟨2023, 4, 9, 7, 5, 3⟩
  Prefix := some "DROP\nACCEPT"
  InDev := none
  OutDev := none
  HwType := none
  HwProtocol := none
  Payload := none

/-- A run in which opening the channel fails. -/
def openFailureRun : Run where
  nflogGroup := 7
  openErr := some "operation not permitted"
  registerErr := none
  deliveries := [Delivery.record sampleRecord]
  signal := some Signal.SIGTERM

/-- A successful run: one record is delivered, then SIGINT arrives. -/
def quietRun : Run where
  nflogGroup := 7
  openErr := none
  registerErr := none
  deliveries := [Delivery.record sampleRecord]
  signal := some Signal.SIGINT

/-- The records among the deliveries, in order. -/
def recordsOf (ds : List Delivery) : List Attribute :=
  ds.filterMap fun d =>
    match d with
    | .record attrs => some attrs
    | .error _ => none

/-! ## Theorems: the formatter -/

/-- The output of `format`, field by field. -/
theorem format_fields (env : Env) (attrs : Attribute) :
    format env attrs =
      attrs.Prefix.getD "" ++ " IN=" ++ specIfaceValue env attrs.InDev ++
        " OUT=" ++ specIfaceValue env attrs.OutDev ++
        " HWTYPE=" ++ specHwTypeName env attrs.HwType ++
        specHwProtoField env attrs ++ specNetSegment env attrs := by
  obtain ⟨ts, pfx, inDev, outDev, hwT, hwP, payload⟩ := attrs
  cases pfx <;> cases inDev <;> cases outDev <;> cases hwT <;> cases hwP <;> cases payload <;>
    simp only [format, specIfaceValue, specHwTypeName, specHwProtoField, specNetSegment,
      Option.getD] <;>
    (repeat' split) <;> apply String.ext <;> simp [String.data_append]

/-- C1: `format` returns the prefix (empty when absent), then ` IN=` and the
input-interface value, ` OUT=` and the output-interface value, ` HWTYPE=` and
the hardware-type name, the ` HWPROTO=` field exactly when the hardware type is
present, and the segment of `formatIPv4` exactly when the payload is present. -/
theorem format_eq_fields (env : Env) (attrs : Attribute) :
    format env attrs =
      attrs.Prefix.getD "" ++ " IN=" ++ specIfaceValue env attrs.InDev ++
        " OUT=" ++ specIfaceValue env attrs.OutDev ++
        " HWTYPE=" ++ specHwTypeName env attrs.HwType ++
        specHwProtoField env attrs ++ specNetSegment env attrs :=
  format_fields env attrs

/-- C2: for the record with prefix `DROP`, an input index resolving to `eth0`,
no output index, no hardware fields and a payload parsing as total length 60,
source 10.0.0.1, destination 10.0.0.2, protocol 6 named `TCP`, `format` returns
`DROP IN=eth0 OUT= HWTYPE= LEN=60 SRC=10.0.0.1 DST=10.0.0.2 PROTO=TCP`, and the
line `hook` writes is the timestamp, two spaces, that text and a newline. -/
theorem format_drop_scenario (env : Env) (ts : Time) (i : Nat) (payload : List Nat)
    (hin : env.InterfaceByIndex (Int.ofNat i) = Except.ok ⟨"eth0"⟩)
    (hparse : env.ParseHeader payload = Except.ok ⟨60, ⟨10, 0, 0, 1⟩, ⟨10, 0, 0, 2⟩, 6⟩)
    (hproto : env.ipProtoToString 6 = "TCP") :
    format env ⟨ts, some "DROP", some i, none, none, none, some payload⟩ =
        "DROP IN=eth0 OUT= HWTYPE= LEN=60 SRC=10.0.0.1 DST=10.0.0.2 PROTO=TCP" ∧
      (hook env ⟨ts, some "DROP", some i, none, none, none, some payload⟩).1 =
        [Event.stdout (ts.Format ++ "  " ++
          "DROP IN=eth0 OUT= HWTYPE= LEN=60 SRC=10.0.0.1 DST=10.0.0.2 PROTO=TCP" ++ "\n")] := by
  have hfmt : format env ⟨ts, some "DROP", some i, none, none, none, some payload⟩ =
      "DROP IN=eth0 OUT= HWTYPE= LEN=60 SRC=10.0.0.1 DST=10.0.0.2 PROTO=TCP" := by
    simp only [format, formatIPv4, hin, hparse, hproto]
    decide
  exact ⟨hfmt, by simp only [hook, hfmt]⟩

/-- Witness for C2: the scenario holds of the sample environment and record. -/
theorem format_drop_scenario_witness :
    format sampleEnv ⟨⟨2023, 4, 9, 7, 5, 3⟩, some "DROP", some 2, none, none, none,
        some samplePacket⟩ =
        "DROP IN=eth0 OUT= HWTYPE= LEN=60 SRC=10.0.0.1 DST=10.0.0.2 PROTO=TCP" ∧
      (hook sampleEnv ⟨⟨2023, 4, 9, 7, 5, 3⟩, some "DROP", some 2, none, none, none,
        some samplePacket⟩).1 =
        [Event.stdout ((⟨2023, 4, 9, 7, 5, 3⟩ : Time).Format ++ "  " ++
          "DROP IN=eth0 OUT= HWTYPE= LEN=60 SRC=10.0.0.1 DST=10.0.0.2 PROTO=TCP" ++ "\n")] :=
  format_drop_scenario sampleEnv ⟨2023, 4, 9, 7, 5, 3⟩ 2 samplePacket
    rfl rfl rfl

/-- C3: in the output of `format` the prefix is followed by ` IN=` and a value,
then ` OUT=` and a value, then the hardware and network-layer parts; each of the
two values is `<invalid>` when its index is present and the lookup fails, the
resolved name when the lookup succeeds, and empty when the index is absent. -/
theorem format_interface_fields (env : Env) (attrs : Attribute) :
    ∃ vin vout : String,
      format env attrs =
        attrs.Prefix.getD "" ++ (" IN=" ++ vin) ++ (" OUT=" ++ vout) ++
          (" HWTYPE=" ++ specHwTypeName env attrs.HwType ++ specHwProtoField env attrs ++
            specNetSegment env attrs) ∧
      (∀ i e, attrs.InDev = some i → env.InterfaceByIndex (Int.ofNat i) = Except.error e →
        vin = "<invalid>") ∧
      (∀ i intf, attrs.InDev = some i → env.InterfaceByIndex (Int.ofNat i) = Except.ok intf →
        vin = intf.Name) ∧
      (attrs.InDev = none → vin = "") ∧
      (∀ i e, attrs.OutDev = some i → env.InterfaceByIndex (Int.ofNat i) = Except.error e →
        vout = "<invalid>") ∧
      (∀ i intf, attrs.OutDev = some i → env.InterfaceByIndex (Int.ofNat i) = Except.ok intf →
        vout = intf.Name) ∧
      (attrs.OutDev = none → vout = "") := by
  refine ⟨specIfaceValue env attrs.InDev, specIfaceValue env attrs.OutDev, ?_, ?_, ?_, ?_,
    ?_, ?_, ?_⟩
  · rw [format_fields]
    simp only [String.append_assoc]
  · intro i e hi he
    simp only [hi, specIfaceValue, he]
  · intro i intf hi hok
    simp only [hi, specIfaceValue, hok]
  · intro hi
    simp only [hi, specIfaceValue]
  · intro i e hi he
    simp only [hi, specIfaceValue, he]
  · intro i intf hi hok
    simp only [hi, specIfaceValue, hok]
  · intro hi
    simp only [hi, specIfaceValue]

/-- C4: when the payload is present and the header parser returns an error,
`formatIPv4` returns ` <invalid not IPv4??>` and `format` returns the prefix,
interface and hardware fields followed by that marker and nothing else. -/
theorem format_invalid_payload (env : Env) (attrs : Attribute) (payload : List Nat) (e : String)
    (hpayload : attrs.Payload = some payload)
    (hparse : env.ParseHeader payload = Except.error e) :
    formatIPv4 env payload = " <invalid not IPv4??>" ∧
      format env attrs =
        attrs.Prefix.getD "" ++ " IN=" ++ specIfaceValue env attrs.InDev ++
          " OUT=" ++ specIfaceValue env attrs.OutDev ++
          " HWTYPE=" ++ specHwTypeName env attrs.HwType ++
          specHwProtoField env attrs ++ " <invalid not IPv4??>" := by
  have hip : formatIPv4 env payload = " <invalid not IPv4??>" := by
    simp only [formatIPv4, hparse]
  refine ⟨hip, ?_⟩
  rw [format_fields]
  simp only [specNetSegment, hpayload, hip]

/-- Witness for C4: the empty payload, which the sample parser rejects. -/
theorem format_invalid_payload_witness :
    formatIPv4 sampleEnv [] = " <invalid not IPv4??>" ∧
      format sampleEnv ⟨⟨2023, 4, 9, 7, 5, 3⟩, some "DROP", some 2, some 9, some 1, none, some []⟩ =
        "DROP IN=eth0 OUT=<invalid> HWTYPE=ETHER HWPROTO= <invalid not IPv4??>" :=
  format_invalid_payload sampleEnv
    ⟨⟨2023, 4, 9, 7, 5, 3⟩, some "DROP", some 2, some 9, some 1, none, some []⟩ []
    "header too short" rfl rfl

/-- C6: for a payload the header parser accepts, `formatIPv4` returns ` LEN=`
and the decimal total length, ` SRC=` and the source address, ` DST=` and the
destination address, ` PROTO=` and the protocol name, and nothing after it. -/
theorem formatIPv4_parsed (env : Env) (payload : List Nat) (header : Header)
    (hparse : env.ParseHeader payload = Except.ok header) :
    formatIPv4 env payload =
      " LEN=" ++ toString header.TotalLen ++ " SRC=" ++ header.Src.String ++
        " DST=" ++ header.Dst.String ++ " PROTO=" ++ env.ipProtoToString header.Protocol := by
  simp only [formatIPv4, hparse, String.empty_append]

/-- Witness for C6: the sample packet under the sample parser. -/
theorem formatIPv4_parsed_witness :
    formatIPv4 sampleEnv samplePacket =
      " LEN=" ++ toString (60 : Int) ++ " SRC=" ++ IP.String ⟨10, 0, 0, 1⟩ ++
        " DST=" ++ IP.String ⟨10, 0, 0, 2⟩ ++ " PROTO=" ++ sampleEnv.ipProtoToString 6 :=
  formatIPv4_parsed sampleEnv samplePacket ⟨60, ⟨10, 0, 0, 1⟩, ⟨10, 0, 0, 2⟩, 6⟩ rfl

/-! ### Occurrences of a label in a formatted line -/

/-- An occurrence of `pat` in `xs ++ c :: r` lies in `xs` or in `c :: r`, when
`c` can only be the first character of `pat`. -/
theorem infix_split_at {α : Type} (pat xs r : List α) (c : α)
    (hc : ∀ v ∈ pat.tails, v ≠ pat → v.head? ≠ some c)
    (h : pat <:+: xs ++ c :: r) : pat <:+: xs ∨ pat <:+: c :: r := by
  obtain ⟨s, t, hst⟩ := h
  rcases List.append_eq_append_iff.mp hst with ⟨a, hxs, _⟩ | ⟨b, hsp, hcr⟩
  · exact Or.inl ⟨s, a, hxs.symm⟩
  · rcases List.append_eq_append_iff.mp hsp with ⟨a2, hxs, hpat⟩ | ⟨c2, hs, hb⟩
    · cases b with
      | nil =>
        left
        refine ⟨s, [], ?_⟩
        simp only [List.append_nil] at hpat ⊢
        rw [hpat, hxs]
      | cons b0 bt =>
        have hb0 : b0 = c := by
          have hhead := hcr
          simp only [List.cons_append, List.cons.injEq] at hhead
          exact hhead.1.symm
        by_cases heq : b0 :: bt = pat
        · right
          refine ⟨[], t, ?_⟩
          rw [← heq, hcr]
          simp
        · exfalso
          refine hc (b0 :: bt) ?_ heq ?_
          · rw [List.mem_tails]
            exact ⟨a2, hpat.symm⟩
          · simp [hb0]
    · right
      refine ⟨c2, t, ?_⟩
      rw [hcr, hb]

/-- An occurrence of a network-layer label (or of ` PROTO=`) in a line up to
the `HWTYPE` value lies inside the prefix, one of the two interface values, or
the part after ` HWTYPE=`. -/
theorem infix_line (pat : List Char)
    (hpat : pat ∈ ["LEN=".data, "SRC=".data, "DST=".data, "PROTO=".data, " PROTO=".data])
    (P A B T : List Char)
    (h : pat <:+: P ++ ' ' :: 'I' :: 'N' :: '=' :: (A ++ ' ' :: 'O' :: 'U' :: 'T' :: '=' ::
      (B ++ ' ' :: 'H' :: 'W' :: 'T' :: 'Y' :: 'P' :: 'E' :: '=' :: T))) :
    pat <:+: P ∨ pat <:+: A ∨ pat <:+: B ∨ pat <:+: T := by
  simp only [List.mem_cons, List.mem_singleton, List.not_mem_nil, or_false] at hpat
  rcases hpat with rfl | rfl | rfl | rfl | rfl
  all_goals
    rcases infix_split_at _ P _ ' ' (by decide) h with h1 | h1
    · exact Or.inl h1
    · simp [List.infix_cons_iff, List.cons_prefix_cons] at h1
      rcases infix_split_at _ A _ ' ' (by decide) h1 with h2 | h2
      · exact Or.inr (Or.inl h2)
      · simp [List.infix_cons_iff, List.cons_prefix_cons] at h2
        rcases infix_split_at _ B _ ' ' (by decide) h2 with h3 | h3
        · exact Or.inr (Or.inr (Or.inl h3))
        · simp [List.infix_cons_iff, List.cons_prefix_cons] at h3
          exact Or.inr (Or.inr (Or.inr h3))

/-- An occurrence of `LEN=`, `SRC=`, `DST=` or ` PROTO=` in a hardware-type
name followed by the `HWPROTO` field lies inside one of the two names. -/
theorem infix_hwproto (pat : List Char)
    (hpat : pat ∈ ["LEN=".data, "SRC=".data, "DST=".data, " PROTO=".data])
    (T N : List Char)
    (h : pat <:+: T ++ ' ' :: 'H' :: 'W' :: 'P' :: 'R' :: 'O' :: 'T' :: 'O' :: '=' :: N) :
    pat <:+: T ∨ pat <:+: N := by
  simp only [List.mem_cons, List.mem_singleton, List.not_mem_nil, or_false] at hpat
  rcases hpat with rfl | rfl | rfl | rfl
  all_goals
    rcases infix_split_at _ T _ ' ' (by decide) h with h1 | h1
    · exact Or.inl h1
    · simp [List.infix_cons_iff, List.cons_prefix_cons] at h1
      exact Or.inr h1

/-- The characters of a line formatted from a record without payload. -/
theorem format_no_payload_data (env : Env) (attrs : Attribute) (hpayload : attrs.Payload = none) :
    (format env attrs).data =
      (attrs.Prefix.getD "").data ++ ' ' :: 'I' :: 'N' :: '=' ::
        ((specIfaceValue env attrs.InDev).data ++ ' ' :: 'O' :: 'U' :: 'T' :: '=' ::
          ((specIfaceValue env attrs.OutDev).data ++
            ' ' :: 'H' :: 'W' :: 'T' :: 'Y' :: 'P' :: 'E' :: '=' ::
              ((specHwTypeName env attrs.HwType).data ++ (specHwProtoField env attrs).data))) := by
  rw [format_fields]
  simp [specNetSegment, hpayload, String.data_append]

/-- Where a label can occur in a line formatted from a record without payload:
in the prefix, an interface value, or a hardware name. -/
theorem occurs_format_no_payload (env : Env) (attrs : Attribute)
    (hpayload : attrs.Payload = none) (pat : String)
    (hpat : pat.data ∈ ["LEN=".data, "SRC=".data, "DST=".data, " PROTO=".data])
    (h : Occurs pat (format env attrs)) :
    Occurs pat (attrs.Prefix.getD "") ∨ Occurs pat (specIfaceValue env attrs.InDev) ∨
      Occurs pat (specIfaceValue env attrs.OutDev) ∨
      Occurs pat (specHwTypeName env attrs.HwType) ∨ Occurs pat (specHwProtoName env attrs) := by
  unfold Occurs at h ⊢
  rw [format_no_payload_data env attrs hpayload] at h
  have hpat5 : pat.data ∈
      ["LEN=".data, "SRC=".data, "DST=".data, "PROTO=".data, " PROTO=".data] := by
    simp only [List.mem_cons, List.mem_singleton, List.not_mem_nil, or_false] at hpat ⊢
    tauto
  rcases infix_line pat.data hpat5 _ _ _ _ h with h1 | h1 | h1 | h1
  · exact Or.inl h1
  · exact Or.inr (Or.inl h1)
  · exact Or.inr (Or.inr (Or.inl h1))
  · right; right; right
    cases hty : attrs.HwType with
    | none =>
      simp only [hty, specHwTypeName, specHwProtoField] at h1 ⊢
      exact Or.inl (by simpa using h1)
    | some t =>
      have hfield : (specHwProtoField env attrs).data =
          ' ' :: 'H' :: 'W' :: 'P' :: 'R' :: 'O' :: 'T' :: 'O' :: '=' ::
            (specHwProtoName env attrs).data := by
        cases hpr : attrs.HwProtocol <;>
          simp [specHwProtoField, specHwProtoName, hty, hpr, String.data_append]
      rw [hfield, hty] at h1
      exact infix_hwproto pat.data hpat _ _ h1

/-- Without payload and without hardware type, `PROTO=` can occur only in the
prefix or an interface value. -/
theorem occurs_proto_no_hwtype (env : Env) (attrs : Attribute)
    (hpayload : attrs.Payload = none) (hty : attrs.HwType = none)
    (h : Occurs "PROTO=" (format env attrs)) :
    Occurs "PROTO=" (attrs.Prefix.getD "") ∨ Occurs "PROTO=" (specIfaceValue env attrs.InDev) ∨
      Occurs "PROTO=" (specIfaceValue env attrs.OutDev) := by
  unfold Occurs at h ⊢
  rw [format_no_payload_data env attrs hpayload] at h
  rcases infix_line "PROTO=".data (by decide) _ _ _ _ h with h1 | h1 | h1 | h1
  · exact Or.inl h1
  · exact Or.inr (Or.inl h1)
  · exact Or.inr (Or.inr h1)
  · exfalso
    simp [hty, specHwTypeName, specHwProtoField] at h1

/-- A text free of `PROTO=` is free of ` PROTO=`. -/
theorem not_occurs_spaced_proto (s : String) (h : ¬ Occurs "PROTO=" s) :
    ¬ Occurs " PROTO=" s := by
  intro hs
  apply h
  unfold Occurs at hs ⊢
  exact List.IsInfix.trans (by decide) hs

/-- The values `format` puts in the line are label-free when the prefix and
the resolved names are. -/
theorem labelFree_values (env : Env) (attrs : Attribute)
    (hpfx : ∀ p, attrs.Prefix = some p → LabelFree p)
    (hin : ∀ i intf, attrs.InDev = some i →
      env.InterfaceByIndex (Int.ofNat i) = Except.ok intf → LabelFree intf.Name)
    (hout : ∀ i intf, attrs.OutDev = some i →
      env.InterfaceByIndex (Int.ofNat i) = Except.ok intf → LabelFree intf.Name)
    (hty : ∀ t, attrs.HwType = some t → LabelFree (env.hwTypeToString t))
    (hpr : ∀ t p, attrs.HwType = some t → attrs.HwProtocol = some p →
      LabelFree (env.hwProtocolToString t p)) :
    LabelFree (attrs.Prefix.getD "") ∧ LabelFree (specIfaceValue env attrs.InDev) ∧
      LabelFree (specIfaceValue env attrs.OutDev) ∧
      LabelFree (specHwTypeName env attrs.HwType) ∧ LabelFree (specHwProtoName env attrs) := by
  have hempty : LabelFree "" := by decide
  have hinvalid : LabelFree "<invalid>" := by decide
  refine ⟨?_, ?_, ?_, ?_, ?_⟩
  · cases hp : attrs.Prefix with
    | none => exact hempty
    | some p => exact hpfx p hp
  · cases hi : attrs.InDev with
    | none => exact hempty
    | some i =>
      cases hl : env.InterfaceByIndex (Int.ofNat i) with
      | ok intf =>
        simp only [specIfaceValue, hl]
        exact hin i intf hi hl
      | error e =>
        simp only [specIfaceValue, hl]
        exact hinvalid
  · cases hi : attrs.OutDev with
    | none => exact hempty
    | some i =>
      cases hl : env.InterfaceByIndex (Int.ofNat i) with
      | ok intf =>
        simp only [specIfaceValue, hl]
        exact hout i intf hi hl
      | error e =>
        simp only [specIfaceValue, hl]
        exact hinvalid
  · cases ht : attrs.HwType with
    | none => exact hempty
    | some t => exact hty t ht
  · cases ht : attrs.HwType with
    | none =>
      simp only [specHwProtoName, ht]
      exact hempty
    | some t =>
      cases hp : attrs.HwProtocol with
      | none =>
        simp only [specHwProtoName, ht, hp]
        exact hempty
      | some p =>
        simp only [specHwProtoName, ht, hp]
        exact hpr t p ht hp

/-- C5, as stated, fails: the record `hwRecord` has no payload, and its prefix,
interface names and hardware names contain none of the labels, yet the
formatted line contains `PROTO=`, inside the label ` HWPROTO=`. -/
theorem format_no_payload_label_counterexample :
    hwRecord.Payload = none ∧
      LabelFree "DROP" ∧ LabelFree "eth0" ∧ LabelFree "ETHER" ∧ LabelFree "IP" ∧
      format sampleEnv hwRecord = "DROP IN=eth0 OUT= HWTYPE=ETHER HWPROTO=IP" ∧
      "PROTO=" ∈ netLabels ∧ Occurs "PROTO=" (format sampleEnv hwRecord) := by
  decide

/-- C5, amended: for a record without payload nothing follows the hardware
fields, and, for prefixes, interface names and hardware names free of the
labels, the line contains none of `LEN=`, `SRC=`, `DST=` and no ` PROTO=` field;
it contains no `PROTO=` at all when the hardware type is absent. -/
theorem format_no_payload (env : Env) (attrs : Attribute)
    (hpayload : attrs.Payload = none)
    (hpfx : ∀ p, attrs.Prefix = some p → LabelFree p)
    (hin : ∀ i intf, attrs.InDev = some i →
      env.InterfaceByIndex (Int.ofNat i) = Except.ok intf → LabelFree intf.Name)
    (hout : ∀ i intf, attrs.OutDev = some i →
      env.InterfaceByIndex (Int.ofNat i) = Except.ok intf → LabelFree intf.Name)
    (hty : ∀ t, attrs.HwType = some t → LabelFree (env.hwTypeToString t))
    (hpr : ∀ t p, attrs.HwType = some t → attrs.HwProtocol = some p →
      LabelFree (env.hwProtocolToString t p)) :
    format env attrs =
        attrs.Prefix.getD "" ++ " IN=" ++ specIfaceValue env attrs.InDev ++
          " OUT=" ++ specIfaceValue env attrs.OutDev ++
          " HWTYPE=" ++ specHwTypeName env attrs.HwType ++ specHwProtoField env attrs ∧
      ¬ Occurs "LEN=" (format env attrs) ∧ ¬ Occurs "SRC=" (format env attrs) ∧
      ¬ Occurs "DST=" (format env attrs) ∧ ¬ Occurs " PROTO=" (format env attrs) ∧
      (attrs.HwType = none → ¬ Occurs "PROTO=" (format env attrs)) := by
  obtain ⟨h1, h2, h3, h4, h5⟩ := labelFree_values env attrs hpfx hin hout hty hpr
  have key : ∀ pat : String, pat ∈ netLabels →
      pat.data ∈ ["LEN=".data, "SRC=".data, "DST=".data, " PROTO=".data] →
      ¬ Occurs pat (format env attrs) := by
    intro pat hmem hpat hocc
    rcases occurs_format_no_payload env attrs hpayload pat hpat hocc with h | h | h | h | h
    · exact h1 pat hmem h
    · exact h2 pat hmem h
    · exact h3 pat hmem h
    · exact h4 pat hmem h
    · exact h5 pat hmem h
  have hproto : "PROTO=" ∈ netLabels := by decide
  refine ⟨?_, key "LEN=" (by decide) (by decide), key "SRC=" (by decide) (by decide),
    key "DST=" (by decide) (by decide), ?_, ?_⟩
  · rw [format_fields]
    simp only [specNetSegment, hpayload, String.append_empty]
  · intro hocc
    rcases occurs_format_no_payload env attrs hpayload " PROTO=" (by decide) hocc
      with h | h | h | h | h
    · exact not_occurs_spaced_proto _ (h1 _ hproto) h
    · exact not_occurs_spaced_proto _ (h2 _ hproto) h
    · exact not_occurs_spaced_proto _ (h3 _ hproto) h
    · exact not_occurs_spaced_proto _ (h4 _ hproto) h
    · exact not_occurs_spaced_proto _ (h5 _ hproto) h
  · intro hnone hocc
    rcases occurs_proto_no_hwtype env attrs hpayload hnone hocc with h | h | h
    · exact h1 _ hproto h
    · exact h2 _ hproto h
    · exact h3 _ hproto h

/-- Witness for C5 (amended): the record `hwRecord` in the sample environment. -/
theorem format_no_payload_witness :
    format sampleEnv hwRecord =
        "DROP" ++ " IN=" ++ "eth0" ++ " OUT=" ++ "" ++ " HWTYPE=" ++ "ETHER" ++ " HWPROTO=IP" ∧
      ¬ Occurs "LEN=" (format sampleEnv hwRecord) ∧ ¬ Occurs "SRC=" (format sampleEnv hwRecord) ∧
      ¬ Occurs "DST=" (format sampleEnv hwRecord) ∧
      ¬ Occurs " PROTO=" (format sampleEnv hwRecord) ∧
      (hwRecord.HwType = none → ¬ Occurs "PROTO=" (format sampleEnv hwRecord)) :=
  format_no_payload sampleEnv hwRecord rfl
    (fun p hp => by
      have hp2 : p = "DROP" := (Option.some.inj hp).symm
      subst hp2; decide)
    (fun i intf hi hl => by
      have hi2 : i = 2 := (Option.some.inj hi).symm
      subst hi2
      have hl2 : intf = ⟨"eth0"⟩ := (Except.ok.inj hl).symm
      subst hl2; decide)
    (fun i intf hi _ => by cases hi)
    (fun t ht => by
      have ht2 : t = 1 := (Option.some.inj ht).symm
      subst ht2; decide)
    (fun t p ht hp => by
      have ht2 : t = 1 := (Option.some.inj ht).symm
      have hp2 : p = 2048 := (Option.some.inj hp).symm
      subst ht2; subst hp2; decide)

/-! ## Theorems: the capture session -/

/-- With the callbacks of `main`, the delivery loop handles every delivery. -/
theorem deliver_eq_flatMap (env : Env) (ds : List Delivery) :
    deliver (hook env) errFunc ds = ds.flatMap (handle env) := by
  induction ds with
  | nil => rfl
  | cons d rest ih =>
    cases d <;> simp [deliver, hook, errFunc, handle, ih]

/-- The callbacks only write to standard output and standard error. -/
theorem deliver_isWrite (env : Env) (ds : List Delivery) :
    ∀ e ∈ deliver (hook env) errFunc ds, e.isWrite = true := by
  rw [deliver_eq_flatMap]
  intro e he
  rw [List.mem_flatMap] at he
  obtain ⟨d, _, hd⟩ := he
  cases d <;> simp [handle, hook, errFunc] at hd <;> subst hd <;> rfl

/-- The actions of `main` once the group is accepted and the channel is open
and registered: the trace up to the wait on `sigs`. -/
theorem main_trace_registered (env : Env) (r : Run)
    (hgroup : r.nflogGroup ≤ 65535) (hopen : r.openErr = none) (hreg : r.registerErr = none) :
    main env r =
      (match r.signal with
       | none =>
         { trace := [Event.nflogOpen ⟨r.nflogGroup, CopyMode.CopyPacket⟩,
             Event.stderr ("listening to NFLOG Group " ++ toString r.nflogGroup ++ "\n"),
             Event.register, Event.notify [Signal.SIGINT, Signal.SIGTERM]] ++
             deliver (hook env) errFunc r.deliveries,
           deferred := [Event.cancel, Event.nfClose], status := none }
       | some sig =>
         { trace := [Event.nflogOpen ⟨r.nflogGroup, CopyMode.CopyPacket⟩,
             Event.stderr ("listening to NFLOG Group " ++ toString r.nflogGroup ++ "\n"),
             Event.register, Event.notify [Signal.SIGINT, Signal.SIGTERM]] ++
             deliver (hook env) errFunc r.deliveries ++
             [Event.recv sig, Event.cancel, Event.nfClose, Event.exit 0],
           deferred := [], status := some 0 }) := by
  have hmod : r.nflogGroup % 65536 = r.nflogGroup := Nat.mod_eq_of_lt (by omega)
  have hlt : r.nflogGroup < 65536 := by omega
  have hle : ¬ r.nflogGroup > maxUint16 := by
    simp only [maxUint16]; omega
  cases hsig : r.signal <;>
    simp [main, hle, hopen, hreg, hsig, hmod, hlt, Proc.emit, Proc.defer, Proc.ret]

/-- No channel is opened, registered or closed by a callback. -/
theorem not_mem_deliver (env : Env) (ds : List Delivery) (e : Event) (he : e.isWrite = false) :
    e ∉ deliver (hook env) errFunc ds := by
  intro hmem
  have hw := deliver_isWrite env ds e hmem
  rw [he] at hw
  exact Bool.noConfusion hw

/-- C7: a group value above 65535 makes `main` write the usage error to
standard error and exit with status 1, and no channel is opened; a value from
0 to 65535 is accepted: the first action is opening the channel with exactly
that group and the copy mode `CopyPacket`, and no other channel is opened. -/
theorem main_group_check (env : Env) (r : Run) :
    (65535 < r.nflogGroup →
      (main env r).trace =
        [Event.stderr ("invalid group id " ++ toString r.nflogGroup ++
          " (must be between 0 and 65535)\n"), Event.exit 1] ∧
      (main env r).status = some 1 ∧
      ∀ c, Event.nflogOpen c ∉ (main env r).trace) ∧
    (r.nflogGroup ≤ 65535 →
      (∃ rest, (main env r).trace =
        Event.nflogOpen ⟨r.nflogGroup, CopyMode.CopyPacket⟩ :: rest) ∧
      (∀ c, Event.nflogOpen c ∈ (main env r).trace →
        c = ⟨r.nflogGroup, CopyMode.CopyPacket⟩) ∧
      (main env r).status ≠ some 1) := by
  constructor
  · intro hgt
    have hbig : r.nflogGroup > maxUint16 := by
      simp only [maxUint16]; omega
    have hmax : toString maxUint16 = "65535" := by decide
    have htrace : (main env r).trace =
        [Event.stderr ("invalid group id " ++ toString r.nflogGroup ++
          " (must be between 0 and 65535)\n"), Event.exit 1] := by
      have htail : " (must be between 0 and " ++ ("65535" ++ ")\n") =
          " (must be between 0 and 65535)\n" := by decide
      simp only [main, hbig, if_true, Proc.emit, Proc.osExit, hmax, List.nil_append,
        List.singleton_append, String.append_assoc, htail]
    refine ⟨htrace, ?_, ?_⟩
    · simp only [main, hbig, if_true, Proc.emit, Proc.osExit]
    · intro c hc
      rw [htrace] at hc
      simp at hc
  · intro hle
    have hmod : r.nflogGroup % 65536 = r.nflogGroup := Nat.mod_eq_of_lt (by omega)
    have hlt : r.nflogGroup < 65536 := by omega
    have hsmall : ¬ r.nflogGroup > maxUint16 := by
      simp only [maxUint16]; omega
    cases hopen : r.openErr with
    | some err =>
      simp [main, hsmall, hopen, hmod, hlt, Proc.emit, Proc.osExit]
    | none =>
      cases hreg : r.registerErr with
      | some err =>
        simp [main, hsmall, hopen, hreg, hmod, hlt, Proc.emit, Proc.defer, Proc.osExit]
      | none =>
        rw [main_trace_registered env r hle hopen hreg]
        cases hsig : r.signal with
        | none =>
          refine ⟨⟨_, rfl⟩, ?_, by simp⟩
          intro c hc
          simp only [List.cons_append, List.nil_append, List.mem_cons, Event.nflogOpen.injEq,
            reduceCtorEq, false_or] at hc
          rcases hc with hc | hc
          · exact hc
          · exact absurd hc (not_mem_deliver env _ _ rfl)
        | some sig =>
          refine ⟨⟨_, rfl⟩, ?_, by simp⟩
          intro c hc
          simp only [List.cons_append, List.nil_append, List.mem_cons, List.mem_append,
            Event.nflogOpen.injEq, reduceCtorEq, false_or, List.not_mem_nil, or_false] at hc
          rcases hc with hc | hc
          · exact hc
          · exact absurd hc (not_mem_deliver env _ _ rfl)

/-- Witness for C7: the group values 65536, 0 and 65535. -/
theorem main_group_check_witness :
    (main sampleEnv ⟨65536, none, none, [], none⟩).status = some 1 ∧
      (main sampleEnv ⟨65536, none, none, [], none⟩).trace =
        [Event.stderr "invalid group id 65536 (must be between 0 and 65535)\n", Event.exit 1] ∧
      (∃ rest, (main sampleEnv ⟨0, none, none, [], none⟩).trace =
        Event.nflogOpen ⟨0, CopyMode.CopyPacket⟩ :: rest) ∧
      (∃ rest, (main sampleEnv ⟨65535, none, none, [], none⟩).trace =
        Event.nflogOpen ⟨65535, CopyMode.CopyPacket⟩ :: rest) :=
  ⟨((main_group_check sampleEnv ⟨65536, none, none, [], none⟩).1 (by decide)).2.1,
    ((main_group_check sampleEnv ⟨65536, none, none, [], none⟩).1 (by decide)).1,
    ((main_group_check sampleEnv ⟨0, none, none, [], none⟩).2 (by decide)).1,
    ((main_group_check sampleEnv ⟨65535, none, none, [], none⟩).2 (by decide)).1⟩

/-- C8, evaluated: when the channel opens and registration fails, `main` ends
through `os.Exit(2)` with status 2 and the deferred `nf.Close()` never runs; no
`Close` is among its actions. -/
theorem main_register_failure_no_close :
    main sampleEnv registerFailureRun =
      { trace := [Event.nflogOpen ⟨7, CopyMode.CopyPacket⟩,
          Event.stderr "listening to NFLOG Group 7\n", Event.register,
          Event.stderr "failed to register hook function: operation not permitted\n",
          Event.exit 2],
        deferred := [Event.cancel, Event.nfClose],
        status := some 2 } ∧
      Event.nfClose ∉ (main sampleEnv registerFailureRun).trace := by
  decide

/-- C9: when the group is valid, opening and registration succeed and a signal
arrives, `main` ends with status 0 and releases the channel exactly once: its
last actions are receiving the signal, `cancel`, `Close`, exit 0, and there is
no other `Close`. -/
theorem main_signal_shutdown (env : Env) (r : Run) (sig : Signal)
    (hgroup : r.nflogGroup ≤ 65535) (hopen : r.openErr = none) (hreg : r.registerErr = none)
    (hsig : r.signal = some sig) :
    (main env r).status = some 0 ∧
      (main env r).trace.count Event.nfClose = 1 ∧
      ∃ pre, (main env r).trace =
          pre ++ [Event.recv sig, Event.cancel, Event.nfClose, Event.exit 0] ∧
        Event.nfClose ∉ pre ∧ Event.cancel ∉ pre := by
  have hd : Event.nfClose ∉ deliver (hook env) errFunc r.deliveries :=
    not_mem_deliver env _ _ rfl
  have hc : Event.cancel ∉ deliver (hook env) errFunc r.deliveries :=
    not_mem_deliver env _ _ rfl
  rw [main_trace_registered env r hgroup hopen hreg, hsig]
  refine ⟨rfl, ?_, _, rfl, ?_, ?_⟩
  · simp [List.count_append, List.count_cons, List.count_eq_zero_of_not_mem hd]
  · simp [hd]
  · simp [hc]

/-- Witness for C9: the run `signalRun`, shut down by SIGTERM. -/
theorem main_signal_shutdown_witness :
    (main sampleEnv signalRun).status = some 0 ∧
      (main sampleEnv signalRun).trace.count Event.nfClose = 1 ∧
      ∃ pre, (main sampleEnv signalRun).trace =
          pre ++ [Event.recv Signal.SIGTERM, Event.cancel, Event.nfClose, Event.exit 0] ∧
        Event.nfClose ∉ pre ∧ Event.cancel ∉ pre :=
  main_signal_shutdown sampleEnv signalRun Signal.SIGTERM (by decide) rfl rfl rfl

/-- C10: `errFunc` writes one report to standard error and returns 0, `hook`
returns 0; so every delivery of a sequence is handled: an error followed by a
record leaves the record's line as it is without the error, the lines on
standard output are those of the records alone, and no callback exits. -/
theorem callbacks_continue (env : Env) :
    (∀ err, errFunc err = ([Event.stderr ("received error on hook: " ++ err ++ "\n")], 0)) ∧
      (∀ attrs, (hook env attrs).2 = 0) ∧
      (∀ ds, deliver (hook env) errFunc ds = ds.flatMap (handle env)) ∧
      (∀ pre err attrs post,
        deliver (hook env) errFunc (pre ++ Delivery.error err :: Delivery.record attrs :: post) =
          deliver (hook env) errFunc pre ++
            [Event.stderr ("received error on hook: " ++ err ++ "\n"),
              Event.stdout (attrs.Timestamp.Format ++ "  " ++ format env attrs ++ "\n")] ++
            deliver (hook env) errFunc post) ∧
      (∀ ds, stdoutOf (deliver (hook env) errFunc ds) =
        stdoutOf (deliver (hook env) errFunc (ds.filter Delivery.isRecord))) ∧
      (∀ ds code, Event.exit code ∉ deliver (hook env) errFunc ds) := by
  refine ⟨fun _ => rfl, fun _ => rfl, deliver_eq_flatMap env, ?_, ?_, ?_⟩
  · intro pre err attrs post
    simp only [deliver_eq_flatMap, List.flatMap_append, List.flatMap_cons, handle, hook, errFunc,
      List.append_assoc, List.singleton_append, List.cons_append, List.nil_append]
  · intro ds
    simp only [deliver_eq_flatMap]
    induction ds with
    | nil => rfl
    | cons d rest ih =>
      cases d with
      | record attrs =>
        simp only [List.flatMap_cons, stdoutOf, List.filterMap_append, Delivery.isRecord,
          List.filter_cons_of_pos] at ih ⊢
        rw [ih]
      | error err =>
        have hfilter : (Delivery.error err :: rest).filter Delivery.isRecord =
            rest.filter Delivery.isRecord := by
          simp [List.filter_cons, Delivery.isRecord]
        rw [hfilter, ← ih]
        simp [stdoutOf, List.flatMap_cons, List.filterMap_append, handle, errFunc]
  · intro ds code
    exact not_mem_deliver env ds _ rfl

/-! ## Theorems: totality and dependence of the formatter -/

/-- C15: `format` is total. With every dereference of a record field written
out, no absent field is dereferenced and a string is returned, for every
record and every outcome of the interface lookup and of the header parse. -/
theorem formatDeref_eq_ok (env : Env) (attrs : Attribute) :
    formatDeref env attrs = Except.ok (format env attrs) := by
  obtain ⟨ts, pfx, inDev, outDev, hwT, hwP, payload⟩ := attrs
  cases pfx <;> cases inDev <;> cases outDev <;> cases hwT <;> cases hwP <;> cases payload <;>
    simp only [formatDeref, format, deref, Option.isSome, Except.bind,
      if_true, if_false, Bool.false_eq_true] <;>
    (repeat' split) <;> (try simp_all) <;> (try subst_vars) <;>
    (try (apply String.ext; simp [String.data_append]))

/-- C16: the result of `format` depends only on the record and on the answers
of the interface table at the record's input and output indices: two tables
that agree there give the same string (so does the same table, twice). -/
theorem format_depends_on_lookups (env : Env) (lookup1 lookup2 : Int → Except String Interface)
    (attrs : Attribute)
    (hin : ∀ i, attrs.InDev = some i → lookup1 (Int.ofNat i) = lookup2 (Int.ofNat i))
    (hout : ∀ i, attrs.OutDev = some i → lookup1 (Int.ofNat i) = lookup2 (Int.ofNat i)) :
    format { env with InterfaceByIndex := lookup1 } attrs =
      format { env with InterfaceByIndex := lookup2 } attrs := by
  have hvin : specIfaceValue { env with InterfaceByIndex := lookup1 } attrs.InDev =
      specIfaceValue { env with InterfaceByIndex := lookup2 } attrs.InDev := by
    cases hi : attrs.InDev with
    | none => rfl
    | some i => simp only [specIfaceValue, hin i hi]
  have hvout : specIfaceValue { env with InterfaceByIndex := lookup1 } attrs.OutDev =
      specIfaceValue { env with InterfaceByIndex := lookup2 } attrs.OutDev := by
    cases hi : attrs.OutDev with
    | none => rfl
    | some i => simp only [specIfaceValue, hout i hi]
  rw [format_fields, format_fields, hvin, hvout]
  rfl

/-- Witness for C16: two tables that differ at index 3 only, and a record
whose only index is 2. -/
theorem format_depends_on_lookups_witness :
    format { sampleEnv with InterfaceByIndex := sampleEnv.InterfaceByIndex } sampleRecord =
      format { sampleEnv with InterfaceByIndex := fun i =>
        if i = 3 then Except.ok ⟨"eth1"⟩ else sampleEnv.InterfaceByIndex i } sampleRecord :=
  format_depends_on_lookups sampleEnv sampleEnv.InterfaceByIndex
    (fun i => if i = 3 then Except.ok ⟨"eth1"⟩ else sampleEnv.InterfaceByIndex i) sampleRecord
    (fun i hi => by
      have hi2 : i = 2 := (Option.some.inj hi).symm
      subst hi2; rfl)
    (fun i hi => by cases hi)

/-- C17: when the hardware type is absent the hardware protocol does not
matter, and ` HWTYPE=` has an empty value and is followed at once by the
network-layer segment: no `HWPROTO` field. When the hardware type is present
` HWPROTO=` follows the `HWTYPE` value at once, with an empty value when the
hardware protocol is absent. -/
theorem format_hw_fields (env : Env) (attrs : Attribute) :
    (attrs.HwType = none →
      (∀ p1 p2, format env { attrs with HwProtocol := p1 } =
        format env { attrs with HwProtocol := p2 }) ∧
      format env attrs =
        attrs.Prefix.getD "" ++ " IN=" ++ specIfaceValue env attrs.InDev ++
          " OUT=" ++ specIfaceValue env attrs.OutDev ++ " HWTYPE=" ++
          specNetSegment env attrs) ∧
    (∀ t, attrs.HwType = some t →
      (attrs.HwProtocol = none →
        format env attrs =
          attrs.Prefix.getD "" ++ " IN=" ++ specIfaceValue env attrs.InDev ++
            " OUT=" ++ specIfaceValue env attrs.OutDev ++
            " HWTYPE=" ++ env.hwTypeToString t ++ " HWPROTO=" ++ specNetSegment env attrs) ∧
      (∀ p, attrs.HwProtocol = some p →
        format env attrs =
          attrs.Prefix.getD "" ++ " IN=" ++ specIfaceValue env attrs.InDev ++
            " OUT=" ++ specIfaceValue env attrs.OutDev ++
            " HWTYPE=" ++ env.hwTypeToString t ++ " HWPROTO=" ++
            env.hwProtocolToString t p ++ specNetSegment env attrs)) := by
  refine ⟨fun hty => ⟨fun p1 p2 => ?_, ?_⟩, fun t hty => ⟨fun hp => ?_, fun p hp => ?_⟩⟩
  · rw [format_fields, format_fields]
    simp only [specHwProtoField, specNetSegment, hty]
  · rw [format_fields]
    simp only [specHwProtoField, specHwTypeName, hty, String.append_empty]
  · rw [format_fields]
    simp only [specHwProtoField, specHwTypeName, hty, hp, String.append_empty,
      String.append_assoc]
  · rw [format_fields]
    simp only [specHwProtoField, specHwTypeName, hty, hp, String.append_assoc]

/-- C18: an absent prefix and a present empty prefix give the same string,
which begins with ` IN=`; a present prefix `p` is copied as it is to the
start of the output and is followed by ` IN=`. -/
theorem format_prefix (env : Env) (attrs : Attribute) :
    format env { attrs with Prefix := none } = format env { attrs with Prefix := some "" } ∧
      (∃ rest, format env { attrs with Prefix := none } = " IN=" ++ rest) ∧
      (∀ p, format env { attrs with Prefix := some p } =
        p ++ format env { attrs with Prefix := none }) ∧
      (∀ p, ∃ rest, format env { attrs with Prefix := some p } = p ++ " IN=" ++ rest) := by
  refine ⟨?_, ⟨specIfaceValue env attrs.InDev ++ " OUT=" ++ specIfaceValue env attrs.OutDev ++
      " HWTYPE=" ++ specHwTypeName env attrs.HwType ++ specHwProtoField env attrs ++
      specNetSegment env attrs, ?_⟩, fun p => ?_, fun p =>
    ⟨specIfaceValue env attrs.InDev ++ " OUT=" ++ specIfaceValue env attrs.OutDev ++
      " HWTYPE=" ++ specHwTypeName env attrs.HwType ++ specHwProtoField env attrs ++
      specNetSegment env attrs, ?_⟩⟩
  · rw [format_fields, format_fields]
    simp only [Option.getD, specHwProtoField, specNetSegment]
  · rw [format_fields]
    simp only [Option.getD, specHwProtoField, specNetSegment, String.empty_append,
      String.append_assoc]
  · rw [format_fields, format_fields]
    simp only [Option.getD, specHwProtoField, specNetSegment, String.empty_append,
      String.append_assoc]
  · rw [format_fields]
    simp only [Option.getD, specHwProtoField, specNetSegment, String.append_assoc]

/-! ## Theorems: the callbacks and the remaining exits of `main` -/

/-- C13: when the group is valid and opening the channel fails, `main` writes
the diagnostic to standard error and exits with status 2; it does nothing
else: no registration, no `Close`, no wait for a signal. -/
theorem main_open_failure (env : Env) (r : Run) (err : String)
    (hgroup : r.nflogGroup ≤ 65535) (hopen : r.openErr = some err) :
    main env r =
        { trace := [Event.nflogOpen ⟨r.nflogGroup, CopyMode.CopyPacket⟩,
            Event.stderr ("could not open nflog socket: " ++ err ++ "\n"), Event.exit 2],
          deferred := [], status := some 2 } ∧
      Event.register ∉ (main env r).trace ∧ Event.nfClose ∉ (main env r).trace ∧
      Event.cancel ∉ (main env r).trace ∧
      (∀ sigs, Event.notify sigs ∉ (main env r).trace) ∧
      (∀ sig, Event.recv sig ∉ (main env r).trace) := by
  have hmod : r.nflogGroup % 65536 = r.nflogGroup := Nat.mod_eq_of_lt (by omega)
  have hsmall : ¬ r.nflogGroup > maxUint16 := by
    simp only [maxUint16]; omega
  have hmain : main env r =
      { trace := [Event.nflogOpen ⟨r.nflogGroup, CopyMode.CopyPacket⟩,
          Event.stderr ("could not open nflog socket: " ++ err ++ "\n"), Event.exit 2],
        deferred := [], status := some 2 } := by
    simp [main, hsmall, hopen, hmod, Proc.emit, Proc.osExit]
  rw [hmain]
  simp

/-- Witness for C13: the run `openFailureRun`. -/
theorem main_open_failure_witness :
    main sampleEnv openFailureRun =
        { trace := [Event.nflogOpen ⟨7, CopyMode.CopyPacket⟩,
            Event.stderr ("could not open nflog socket: " ++ "operation not permitted" ++ "\n"),
            Event.exit 2],
          deferred := [], status := some 2 } ∧
      Event.register ∉ (main sampleEnv openFailureRun).trace ∧
      Event.nfClose ∉ (main sampleEnv openFailureRun).trace ∧
      Event.cancel ∉ (main sampleEnv openFailureRun).trace ∧
      (∀ sigs, Event.notify sigs ∉ (main sampleEnv openFailureRun).trace) ∧
      (∀ sig, Event.recv sig ∉ (main sampleEnv openFailureRun).trace) :=
  main_open_failure sampleEnv openFailureRun "operation not permitted" (by decide) rfl

/-! ### The characters of decimal renderings -/

/-- The digit characters of base 10. -/
theorem digitChar_isDigit : ∀ k, k < 10 → (Nat.digitChar k).isDigit = true := by decide

/-- The loop of `Nat.toDigits` in base 10 only adds digit characters. -/
theorem toDigitsCore_isDigit (fuel : Nat) : ∀ (n : Nat) (ds : List Char),
    (∀ c ∈ ds, c.isDigit = true) → ∀ c ∈ Nat.toDigitsCore 10 fuel n ds, c.isDigit = true := by
  induction fuel with
  | zero =>
    intro n ds h
    simpa [Nat.toDigitsCore] using h
  | succ f ih =>
    intro n ds h
    have hd : (Nat.digitChar (n % 10)).isDigit = true :=
      digitChar_isDigit (n % 10) (Nat.mod_lt _ (by decide))
    have hds : ∀ c ∈ Nat.digitChar (n % 10) :: ds, c.isDigit = true := by
      intro c hc
      rcases List.mem_cons.mp hc with rfl | hc
      · exact hd
      · exact h c hc
    simp only [Nat.toDigitsCore]
    split
    · exact hds
    · exact ih _ _ hds

/-- The decimal rendering of a natural number consists of digits. -/
theorem repr_isDigit (n : Nat) : ∀ c ∈ (Nat.repr n).data, c.isDigit = true := by
  simp only [Nat.repr, Nat.toDigits, List.asString]
  exact toDigitsCore_isDigit _ _ _ (by simp)

/-- A zero-padded rendering consists of digits. -/
theorem zeroPad_isDigit (w n : Nat) : ∀ c ∈ (zeroPad w n).data, c.isDigit = true := by
  intro c hc
  simp only [zeroPad, String.data_append, List.mem_append, List.mem_replicate] at hc
  rcases hc with ⟨_, rfl⟩ | hc
  · rfl
  · exact repr_isDigit n c hc

/-- A zero-padded rendering of a number of at most `w` digits has `w` characters. -/
theorem zeroPad_length (w n : Nat) (hw : 0 < w) (hn : n < 10 ^ w) : (zeroPad w n).length = w := by
  have hlen := Nat.repr_length n w hw hn
  unfold zeroPad
  rw [String.length_append]
  simp only [String.length, List.length_replicate] at hlen ⊢
  omega

/-! ### Newlines -/

/-- Concatenation holds a newline only if a part does. -/
theorem noNewline_append (a b : String) : NoNewline (a ++ b) ↔ NoNewline a ∧ NoNewline b := by
  simp only [NoNewline, String.data_append, List.mem_append, not_or]

/-- A text of digits holds no newline. -/
theorem noNewline_of_isDigit (s : String) (h : ∀ c ∈ s.data, c.isDigit = true) : NoNewline s := by
  intro hmem
  have hd := h _ hmem
  exact absurd hd (by decide)

/-- The decimal rendering of a natural number holds no newline. -/
theorem noNewline_toString_nat (n : Nat) : NoNewline (toString n) :=
  noNewline_of_isDigit _ (repr_isDigit n)

/-- The decimal rendering of an integer holds no newline. -/
theorem noNewline_toString_int (i : Int) : NoNewline (toString i) := by
  cases i with
  | ofNat m => exact noNewline_toString_nat m
  | negSucc m =>
    show NoNewline ("-" ++ toString m.succ)
    rw [noNewline_append]
    exact ⟨by decide, noNewline_toString_nat _⟩

/-- The dotted-decimal text of an address holds no newline. -/
theorem noNewline_IP_String (ip : IP) : NoNewline ip.String := by
  have hdot : NoNewline "." := by decide
  simp only [IP.String, noNewline_append]
  exact ⟨⟨⟨⟨⟨⟨noNewline_toString_nat _, hdot⟩, noNewline_toString_nat _⟩, hdot⟩,
    noNewline_toString_nat _⟩, hdot⟩, noNewline_toString_nat _⟩

/-- The rendered timestamp holds no newline. -/
theorem noNewline_Time_Format (t : Time) : NoNewline t.Format := by
  have hpad : ∀ w n, NoNewline (zeroPad w n) := fun w n =>
    noNewline_of_isDigit _ (zeroPad_isDigit w n)
  have h1 : NoNewline "-" := by decide
  have h2 : NoNewline " " := by decide
  have h3 : NoNewline ":" := by decide
  simp only [Time.Format, noNewline_append]
  exact ⟨⟨⟨⟨⟨⟨⟨⟨⟨⟨hpad _ _, h1⟩, hpad _ _⟩, h1⟩, hpad _ _⟩, h2⟩, hpad _ _⟩, h3⟩, hpad _ _⟩, h3⟩,
    hpad _ _⟩

/-- The segment of `formatIPv4` holds no newline when the protocol name holds none. -/
theorem noNewline_formatIPv4 (env : Env) (payload : List Nat)
    (hip : ∀ header, env.ParseHeader payload = Except.ok header →
      NoNewline (env.ipProtoToString header.Protocol)) :
    NoNewline (formatIPv4 env payload) := by
  cases hparse : env.ParseHeader payload with
  | error e =>
    simp only [formatIPv4, hparse]
    decide
  | ok header =>
    have h1 : NoNewline " LEN=" := by decide
    have h2 : NoNewline " SRC=" := by decide
    have h3 : NoNewline " DST=" := by decide
    have h4 : NoNewline " PROTO=" := by decide
    have h5 : NoNewline "" := by decide
    simp only [formatIPv4, hparse, noNewline_append]
    exact ⟨⟨⟨⟨⟨⟨⟨h5, h1, noNewline_toString_int _⟩, h2⟩, noNewline_IP_String _⟩, h3⟩,
      noNewline_IP_String _⟩, h4⟩, hip header hparse⟩

/-- The output of `format` holds no newline when the prefix and the names it
copies hold none. -/
theorem noNewline_format (env : Env) (attrs : Attribute)
    (hpfx : ∀ p, attrs.Prefix = some p → NoNewline p)
    (hin : ∀ i intf, attrs.InDev = some i →
      env.InterfaceByIndex (Int.ofNat i) = Except.ok intf → NoNewline intf.Name)
    (hout : ∀ i intf, attrs.OutDev = some i →
      env.InterfaceByIndex (Int.ofNat i) = Except.ok intf → NoNewline intf.Name)
    (hty : ∀ t, attrs.HwType = some t → NoNewline (env.hwTypeToString t))
    (hpr : ∀ t p, attrs.HwType = some t → attrs.HwProtocol = some p →
      NoNewline (env.hwProtocolToString t p))
    (hip : ∀ payload header, attrs.Payload = some payload →
      env.ParseHeader payload = Except.ok header →
      NoNewline (env.ipProtoToString header.Protocol)) :
    NoNewline (format env attrs) := by
  have hempty : NoNewline "" := by decide
  have hinvalid : NoNewline "<invalid>" := by decide
  have hP : NoNewline (attrs.Prefix.getD "") := by
    cases hp : attrs.Prefix with
    | none => exact hempty
    | some p => exact hpfx p hp
  have hA : NoNewline (specIfaceValue env attrs.InDev) := by
    cases hi : attrs.InDev with
    | none => exact hempty
    | some i =>
      cases hl : env.InterfaceByIndex (Int.ofNat i) with
      | ok intf =>
        simp only [specIfaceValue, hl]
        exact hin i intf hi hl
      | error e =>
        simp only [specIfaceValue, hl]
        exact hinvalid
  have hB : NoNewline (specIfaceValue env attrs.OutDev) := by
    cases hi : attrs.OutDev with
    | none => exact hempty
    | some i =>
      cases hl : env.InterfaceByIndex (Int.ofNat i) with
      | ok intf =>
        simp only [specIfaceValue, hl]
        exact hout i intf hi hl
      | error e =>
        simp only [specIfaceValue, hl]
        exact hinvalid
  have hT : NoNewline (specHwTypeName env attrs.HwType) := by
    cases ht : attrs.HwType with
    | none => exact hempty
    | some t => exact hty t ht
  have hH : NoNewline (specHwProtoField env attrs) := by
    have hlab : NoNewline " HWPROTO=" := by decide
    cases ht : attrs.HwType with
    | none =>
      simp only [specHwProtoField, ht]
      exact hempty
    | some t =>
      cases hp : attrs.HwProtocol with
      | none =>
        simp only [specHwProtoField, ht, hp, noNewline_append]
        exact ⟨hlab, hempty⟩
      | some p =>
        simp only [specHwProtoField, ht, hp, noNewline_append]
        exact ⟨hlab, hpr t p ht hp⟩
  have hN : NoNewline (specNetSegment env attrs) := by
    cases hpl : attrs.Payload with
    | none =>
      simp only [specNetSegment, hpl]
      exact hempty
    | some payload =>
      simp only [specNetSegment, hpl]
      exact noNewline_formatIPv4 env payload (fun header hh => hip payload header hpl hh)
  have h1 : NoNewline " IN=" := by decide
  have h2 : NoNewline " OUT=" := by decide
  have h3 : NoNewline " HWTYPE=" := by decide
  rw [format_fields]
  simp only [noNewline_append]
  exact ⟨⟨⟨⟨⟨⟨⟨⟨hP, h1⟩, hA⟩, h2⟩, hB⟩, h3⟩, hT⟩, hH⟩, hN⟩

/-- C11: for every record `hook` writes to standard output exactly the
timestamp, two spaces, `format` of the record and one newline, and nothing to
standard error; the timestamp is six digit groups joined by `-`, `-`, a
space, `:`, `:`, of 4, 2, 2, 2, 2, 2 digits for a four-digit year. -/
theorem hook_writes_line (env : Env) (attrs : Attribute) :
    (hook env attrs).1 =
        [Event.stdout (attrs.Timestamp.Format ++ "  " ++ format env attrs ++ "\n")] ∧
      stdoutOf (hook env attrs).1 =
        [attrs.Timestamp.Format ++ "  " ++ format env attrs ++ "\n"] ∧
      stderrOf (hook env attrs).1 = [] ∧
      ∃ y mo d h mi s : String,
        attrs.Timestamp.Format = y ++ "-" ++ mo ++ "-" ++ d ++ " " ++ h ++ ":" ++ mi ++ ":" ++ s ∧
        (∀ c ∈ (y ++ mo ++ d ++ h ++ mi ++ s).data, c.isDigit = true) ∧
        (attrs.Timestamp.year < 10000 → y.length = 4) ∧
        (attrs.Timestamp.month < 100 → mo.length = 2) ∧
        (attrs.Timestamp.day < 100 → d.length = 2) ∧
        (attrs.Timestamp.hour < 100 → h.length = 2) ∧
        (attrs.Timestamp.minute < 100 → mi.length = 2) ∧
        (attrs.Timestamp.second < 100 → s.length = 2) := by
  refine ⟨rfl, rfl, rfl, zeroPad 4 attrs.Timestamp.year, zeroPad 2 attrs.Timestamp.month,
    zeroPad 2 attrs.Timestamp.day, zeroPad 2 attrs.Timestamp.hour,
    zeroPad 2 attrs.Timestamp.minute, zeroPad 2 attrs.Timestamp.second, rfl, ?_,
    fun hlt => zeroPad_length 4 _ (by decide) (by omega),
    fun hlt => zeroPad_length 2 _ (by decide) (by omega),
    fun hlt => zeroPad_length 2 _ (by decide) (by omega),
    fun hlt => zeroPad_length 2 _ (by decide) (by omega),
    fun hlt => zeroPad_length 2 _ (by decide) (by omega),
    fun hlt => zeroPad_length 2 _ (by decide) (by omega)⟩
  intro c hc
  simp only [String.data_append, List.mem_append] at hc
  rcases hc with ((((hc | hc) | hc) | hc) | hc) | hc <;> exact zeroPad_isDigit _ _ c hc

/-- C12, as stated, fails: the prefix of `newlineRecord` holds a newline, and
the text `hook` writes for it holds two newlines, so it is two lines. -/
theorem hook_one_line_counterexample :
    (hook sampleEnv newlineRecord).1 =
        [Event.stdout "2023-04-09 07:05:03  DROP\nACCEPT IN= OUT= HWTYPE=\n"] ∧
      ¬ NoNewline "2023-04-09 07:05:03  DROP\nACCEPT IN= OUT= HWTYPE=" ∧
      ("2023-04-09 07:05:03  DROP\nACCEPT IN= OUT= HWTYPE=\n" : String).data.count '\n' = 2 := by
  decide

/-- C12, amended: for every record whose prefix, resolved interface names,
hardware names and protocol name hold no newline, the text `hook` writes to
standard output is exactly one line: one write, ending with a newline and
holding no other newline. -/
theorem hook_one_line (env : Env) (attrs : Attribute)
    (hpfx : ∀ p, attrs.Prefix = some p → NoNewline p)
    (hin : ∀ i intf, attrs.InDev = some i →
      env.InterfaceByIndex (Int.ofNat i) = Except.ok intf → NoNewline intf.Name)
    (hout : ∀ i intf, attrs.OutDev = some i →
      env.InterfaceByIndex (Int.ofNat i) = Except.ok intf → NoNewline intf.Name)
    (hty : ∀ t, attrs.HwType = some t → NoNewline (env.hwTypeToString t))
    (hpr : ∀ t p, attrs.HwType = some t → attrs.HwProtocol = some p →
      NoNewline (env.hwProtocolToString t p))
    (hip : ∀ payload header, attrs.Payload = some payload →
      env.ParseHeader payload = Except.ok header →
      NoNewline (env.ipProtoToString header.Protocol)) :
    ∃ line, stdoutOf (hook env attrs).1 = [line ++ "\n"] ∧ NoNewline line := by
  refine ⟨attrs.Timestamp.Format ++ "  " ++ format env attrs, rfl, ?_⟩
  simp only [noNewline_append]
  exact ⟨⟨noNewline_Time_Format _, by decide⟩,
    noNewline_format env attrs hpfx hin hout hty hpr hip⟩

/-- Witness for C12 (amended): the sample record in the sample environment. -/
theorem hook_one_line_witness :
    ∃ line, stdoutOf (hook sampleEnv sampleRecord).1 = [line ++ "\n"] ∧ NoNewline line :=
  hook_one_line sampleEnv sampleRecord
    (fun p hp => by
      have hp2 : p = "DROP" := (Option.some.inj hp).symm
      subst hp2; decide)
    (fun i intf hi hl => by
      have hi2 : i = 2 := (Option.some.inj hi).symm
      subst hi2
      have hl2 : intf = ⟨"eth0"⟩ := (Except.ok.inj hl).symm
      subst hl2; decide)
    (fun i intf hi _ => by cases hi)
    (fun t ht => by cases ht)
    (fun t p ht _ => by cases ht)
    (fun payload header hpl hh => by
      have hpl2 : payload = samplePacket := (Option.some.inj hpl).symm
      subst hpl2
      have hh2 : header = ⟨60, ⟨10, 0, 0, 1⟩, ⟨10, 0, 0, 2⟩, 6⟩ := (Except.ok.inj hh).symm
      subst hh2; decide)

/-! ### What a successful run writes -/

/-- The callbacks write to standard output one line for each record. -/
theorem stdoutOf_deliver (env : Env) (ds : List Delivery) :
    stdoutOf (deliver (hook env) errFunc ds) =
      (recordsOf ds).map fun a => a.Timestamp.Format ++ "  " ++ format env a ++ "\n" := by
  rw [deliver_eq_flatMap]
  induction ds with
  | nil => rfl
  | cons d rest ih =>
    simp only [stdoutOf, List.flatMap_cons, List.filterMap_append] at ih ⊢
    rw [ih]
    cases d <;> simp [handle, hook, errFunc, recordsOf]

/-- The callbacks write nothing to standard error when no delivery is an error. -/
theorem stderrOf_deliver_records (env : Env) (ds : List Delivery)
    (h : ∀ d ∈ ds, d.isRecord = true) :
    stderrOf (deliver (hook env) errFunc ds) = [] := by
  rw [deliver_eq_flatMap]
  induction ds with
  | nil => rfl
  | cons d rest ih =>
    have hrest : ∀ d ∈ rest, d.isRecord = true := fun d hd => h d (List.mem_cons_of_mem _ hd)
    have hd : d.isRecord = true := h d (List.mem_cons_self _ _)
    simp only [stderrOf, List.flatMap_cons, List.filterMap_append] at ih ⊢
    rw [ih hrest]
    cases d with
    | record attrs => simp [handle, hook]
    | error err => simp [Delivery.isRecord] at hd

/-- Every delivery is a record when none is an error. -/
theorem recordsOf_length (ds : List Delivery) (h : ∀ d ∈ ds, d.isRecord = true) :
    (recordsOf ds).length = ds.length := by
  induction ds with
  | nil => rfl
  | cons d rest ih =>
    have hrest : ∀ d ∈ rest, d.isRecord = true := fun d hd => h d (List.mem_cons_of_mem _ hd)
    have hd : d.isRecord = true := h d (List.mem_cons_self _ _)
    cases d with
    | record attrs =>
      have hih := ih hrest
      simp only [recordsOf] at hih ⊢
      simp [hih]
    | error err => simp [Delivery.isRecord] at hd

/-- C14, as stated, fails: `quietRun` succeeds (valid group, channel opened
and registered, one record and no error delivered, shut down by SIGINT), and
besides the line of the record it writes `listening to NFLOG Group 7` to
standard error. -/
theorem main_success_silent_counterexample :
    quietRun.nflogGroup ≤ 65535 ∧ quietRun.openErr = none ∧ quietRun.registerErr = none ∧
      (∀ d ∈ quietRun.deliveries, d.isRecord = true) ∧
      quietRun.signal = some Signal.SIGINT ∧
      (main sampleEnv quietRun).status = some 0 ∧
      stderrOf (main sampleEnv quietRun).trace = ["listening to NFLOG Group 7\n"] ∧
      (main sampleEnv quietRun).trace.filter (fun e => e.isWrite) =
        [Event.stderr "listening to NFLOG Group 7\n",
          Event.stdout
            "2023-04-09 07:05:03  DROP IN=eth0 OUT= HWTYPE= LEN=60 SRC=10.0.0.1 DST=10.0.0.2 PROTO=TCP\n"] ∧
      (main sampleEnv quietRun).trace.filter (fun e => e.isWrite) ≠
        (recordsOf quietRun.deliveries).map fun a =>
          Event.stdout (a.Timestamp.Format ++ "  " ++ format sampleEnv a ++ "\n") := by
  decide

/-- C14, amended: in a run that succeeds (valid group, opening and registration
succeed, no delivery error, shutdown by signal) standard output receives
exactly one line for each delivered record, and standard error receives
exactly the one line `listening to NFLOG Group` with the group number. -/
theorem main_success_output (env : Env) (r : Run) (sig : Signal)
    (hgroup : r.nflogGroup ≤ 65535) (hopen : r.openErr = none) (hreg : r.registerErr = none)
    (hrec : ∀ d ∈ r.deliveries, d.isRecord = true) (hsig : r.signal = some sig) :
    (main env r).status = some 0 ∧
      stdoutOf (main env r).trace =
        ((recordsOf r.deliveries).map fun a =>
          a.Timestamp.Format ++ "  " ++ format env a ++ "\n") ∧
      (recordsOf r.deliveries).length = r.deliveries.length ∧
      stderrOf (main env r).trace =
        ["listening to NFLOG Group " ++ toString r.nflogGroup ++ "\n"] := by
  have hout := stdoutOf_deliver env r.deliveries
  have herr := stderrOf_deliver_records env r.deliveries hrec
  rw [main_trace_registered env r hgroup hopen hreg, hsig]
  refine ⟨rfl, ?_, recordsOf_length _ hrec, ?_⟩
  · simp only [stdoutOf, List.filterMap_append] at hout ⊢
    rw [hout]
    simp
  · simp only [stderrOf, List.filterMap_append] at herr ⊢
    rw [herr]
    simp

/-- Witness for C14 (amended): the run `quietRun`. -/
theorem main_success_output_witness :
    (main sampleEnv quietRun).status = some 0 ∧
      stdoutOf (main sampleEnv quietRun).trace =
        ((recordsOf quietRun.deliveries).map fun a =>
          a.Timestamp.Format ++ "  " ++ format sampleEnv a ++ "\n") ∧
      (recordsOf quietRun.deliveries).length = quietRun.deliveries.length ∧
      stderrOf (main sampleEnv quietRun).trace =
        ["listening to NFLOG Group " ++ toString quietRun.nflogGroup ++ "\n"] :=
  main_success_output sampleEnv quietRun Signal.SIGINT (by decide) rfl rfl (by decide) rfl

end Nflogger
